import Mathlib

/-!
Verification of the task/exec lifecycle manager of the containerd shim
(`cmd/containerd-shim-runhcs-v1`): the exec registry, the kill/delete
protocol (`hcsTask.KillExec`, `hcsTask.DeleteExec`, `hcsTask.CreateExec`,
`hcsTask.GetExec`, `hcsTask.Pids`), the creation path
(`newHcsStandaloneTask`) and the teardown sequencer (`hcsTask.waitForExit`).

Go structures are embedded as Lean structures; the concurrency-safe
`sync.Map` registry is embedded as an association list whose iteration
order stands for the (unspecified) `sync.Map.Range` iteration order.
`sync.Map.Range` semantics: the callback is invoked per entry and
iteration stops as soon as the callback returns `false`; this early exit
is modelled faithfully by `mapRange`.
-/

namespace HcsShim

/-- State of a shim exec: `shimExecStateCreated`, `shimExecStateRunning`,
`shimExecStateExited`. -/
inductive ShimExecState
  | created
  | running
  | exited
deriving DecidableEq, Repr

/-- Error taxonomy used by the shim task surface: `errdefs.ErrNotFound`,
`errdefs.ErrAlreadyExists`, `errdefs.ErrFailedPrecondition`,
`errdefs.ErrNotImplemented`, and opaque wrapped errors. -/
inductive ShimErr
  | notFound
  | alreadyExists
  | failedPrecondition
  | notImplemented
  | other (code : Nat)
deriving DecidableEq, Repr

/-- One exec tracked by a task. The `pid`, `exitStatus` and `exitedAt`
fields are the captured status of the exec as exposed by `shimExec.Status`
(the concrete `hcsExec` implementation is outside the provided sources;
per the data model an exec carries `{pid, exitStatus, exitedAt}`,
meaningful once Exited). Time is modelled as a natural number. -/
structure ExecEntry where
  id : String
  pid : Nat
  state : ShimExecState
  exitStatus : Nat
  exitedAt : Nat
deriving DecidableEq, Repr

/-- The `hcsTask` fields relevant to the registry protocol: the task id,
the init exec (`ht.init`) and the exec registry (`ht.execs`, a `sync.Map`
embedded as an association list in iteration order). -/
structure HcsTask where
  id : String
  init : ExecEntry
  execs : List (String × ExecEntry)
deriving DecidableEq, Repr

/-- Lifecycle events published through the `publisher`. -/
inductive TaskEvent
  | taskCreate (containerID : String) (pid : Nat)
  | execAdded (containerID : String) (eid : String)
  | taskDelete (containerID : String) (eid : String)
      (pid : Nat) (exitStatus : Nat) (exitedAt : Nat)
deriving DecidableEq, Repr

/-- Embeds `sync.Map.Load`. -/
def mapLoad (m : List (String × ExecEntry)) (k : String) : Option ExecEntry :=
  (m.find? (fun p => p.1 == k)).map Prod.snd

/-- Embeds `sync.Map.Store`: replace an existing binding, else append. -/
def mapStore (m : List (String × ExecEntry)) (k : String) (v : ExecEntry) :
    List (String × ExecEntry) :=
  if (m.find? (fun p => p.1 == k)).isSome then
    m.map (fun p => if p.1 == k then (k, v) else p)
  else
    m ++ [(k, v)]

/-- Embeds `sync.Map.Delete`. -/
def mapDelete (m : List (String × ExecEntry)) (k : String) :
    List (String × ExecEntry) :=
  m.filter (fun p => p.1 != k)

/-- Embeds `sync.Map.Range`: the callback returns an updated accumulator
and a continuation flag; iteration stops as soon as the flag is `false`. -/
def mapRange {σ : Type} (m : List (String × ExecEntry))
    (f : String → ExecEntry → σ → σ × Bool) (s : σ) : σ :=
  match m with
  | [] => s
  | (k, v) :: rest =>
    let r := f k v s
    if r.2 then mapRange rest f r.1 else r.1

/-- Embeds the registry scan shared by `hcsTask.KillExec` (init branch) and
`hcsTask.DeleteExec` (init branch), callback returns exactly as in the
source: a non-Exited exec sets `invalid` and returns `true`; an Exited
exec returns `false`. -/
def unexitedScan (m : List (String × ExecEntry)) : Bool :=
  mapRange m
    (fun _ v invalid =>
      if v.state ≠ ShimExecState.exited then (true, true) else (invalid, false))
    false

/-- Embeds the `ht.execs.Range` dispatch loop of the `all == true` branch of
`hcsTask.KillExec`: each visited exec is handed to `eg.Go(ex.Kill)`; the
callback returns `false` exactly as in the source. The accumulator records
the ids of the execs handed to the errgroup, in dispatch order. -/
def killAllDispatch (m : List (String × ExecEntry)) : List String :=
  mapRange m (fun _ v acc => (acc ++ [v.id], false)) []

/-- Embeds `hcsTask.GetExec`. -/
def GetExec (ht : HcsTask) (eid : String) : Except ShimErr ExecEntry :=
  if eid = "" then .ok ht.init
  else
    match mapLoad ht.execs eid with
    | some e => .ok e
    | none => .error .notFound

/-- First error of a list of per-goroutine outcomes: models
`errgroup.Group.Wait`, which returns the first error among the dispatched
kill attempts (deterministic under the fully synchronous interpretation,
taking dispatch order). -/
def firstErr : List (Option ShimErr) → Option ShimErr
  | [] => none
  | none :: rest => firstErr rest
  | some e :: _ => some e

/-- Result of `eg.Wait()` converted to the return value of `KillExec`. -/
def egWait (rs : List (Option ShimErr)) : Except ShimErr Unit :=
  match firstErr rs with
  | some er => .error er
  | none => .ok ()

/-- Embeds `hcsTask.KillExec`. The per-exec `shimExec.Kill` operation is
outside the provided sources; its outcome is supplied by the oracle
`killRes`, mapping an exec id to an optional error. The second component
is the list of exec ids handed to the errgroup (the dispatched signals),
in dispatch order. -/
def KillExec (ht : HcsTask) (killRes : String → Option ShimErr)
    (eid : String) (_signal : Nat) (all : Bool) :
    Except ShimErr Unit × List String :=
  match GetExec ht eid with
  | .error er => (.error er, [])
  | .ok e =>
    if all ∧ eid ≠ "" then
      (.error .failedPrecondition, [])
    else if all then
      let targets := killAllDispatch ht.execs ++ [e.id]
      (egWait (targets.map killRes), targets)
    else if eid = "" then
      if unexitedScan ht.execs then
        (.error .failedPrecondition, [])
      else
        (egWait [killRes e.id], [e.id])
    else
      (egWait [killRes e.id], [e.id])

/-- Embeds `hcsTask.DeleteExec`. The invalid-state error constructor
`newExecInvalidStateError` is outside the provided sources; modelled from
the spec: deleting a non-Exited exec is a precondition violation. Returns
the call result, the task after the call, and the published events. -/
def DeleteExec (ht : HcsTask) (eid : String) :
    Except ShimErr (Nat × Nat × Nat) × HcsTask × List TaskEvent :=
  match GetExec ht eid with
  | .error er => (.error er, ht, [])
  | .ok e =>
    if eid = "" ∧ unexitedScan ht.execs then
      (.error .failedPrecondition, ht, [])
    else if e.state ≠ ShimExecState.exited then
      (.error .failedPrecondition, ht, [])
    else
      (.ok (e.pid, e.exitStatus, e.exitedAt),
       (if eid = "" then ht else { ht with execs := mapDelete ht.execs eid }),
       [TaskEvent.taskDelete ht.id eid e.pid e.exitStatus e.exitedAt])

/-- Embeds `hcsTask.CreateExec`. The relay construction `newRelay` and the
exec construction `newHcsExec` are outside the provided sources: the relay
outcome is supplied by the oracle `relayErr` and the constructed exec by
`ne`. Returns the call result, the task after the call, and the published
events. -/
def CreateExec (ht : HcsTask) (eid : String) (relayErr : Option ShimErr)
    (ne : ExecEntry) :
    Except ShimErr Unit × HcsTask × List TaskEvent :=
  if (mapLoad ht.execs eid).isSome ∨ eid = "" then
    (.error .alreadyExists, ht, [])
  else if ht.init.state ≠ ShimExecState.running then
    (.error .failedPrecondition, ht, [])
  else
    match relayErr with
    | some er => (.error er, ht, [])
    | none =>
      (.ok (), { ht with execs := mapStore ht.execs eid ne },
       [TaskEvent.execAdded ht.id eid])

/-- Embeds `hcsTask.Pids`: the source returns `errdefs.ErrNotImplemented`
unconditionally. -/
def hcsTaskPids (_ht : HcsTask) : Except ShimErr (List (Nat × String)) :=
  .error .notImplemented

/-- Windows path join, as used by `filepath.Join(layers[layersLen-1], "vm")`. -/
def filepathJoin (dir name : String) : String := dir ++ "\\" ++ name

/-- Embeds lines 65 to 75 of `newHcsStandaloneTask` (the `OptionsWCOW`
branch): `layers` is a fresh buffer produced by `make` plus `copy`, its
last entry is replaced by the nested `vm` subdirectory, and the result is
assigned to `wopts.LayerFolders`. The first component of the result is
`wopts.LayerFolders`; the second is `s.Windows.LayerFolders` after the
block (unchanged, because the `copy` wrote into a fresh buffer). -/
def setupWcowLayers (specLayers : List String) : List String × List String :=
  let layersLen := specLayers.length
  let layers := specLayers.take layersLen
  let vmPath := filepathJoin (layers.getD (layersLen - 1) "") "vm"
  let layers := layers.set (layersLen - 1) vmPath
  (layers, specLayers)

/-- Guest-kernel kind of the boundary options returned by
`oci.SpecToUVMCreateOpts`: `uvm.OptionsLCOW` or `uvm.OptionsWCOW`. -/
inductive BoundaryKind
  | lcow
  | wcow
deriving DecidableEq, Repr

/-- Observable effects of the creation path `newHcsStandaloneTask`. -/
inductive CreateAction
  | createBoundary
  | mkdirVm
  | startBoundary
  | closeBoundary
  | createTask
deriving DecidableEq, Repr

/-- Oracle describing one run of `newHcsStandaloneTask`: the outcome of
each external call it makes (`oci.GetSandboxTypeAndID`,
`oci.SpecToUVMCreateOpts`, `os.MkdirAll`, `uvm.CreateLCOW` or
`uvm.CreateWCOW`, `parent.Start`, `newHcsTask`), plus the branch
conditions read from the specification and host
(`osversion.Get().Build >= RS5 && oci.IsIsolated(s)`, `oci.IsWCOW(s)`,
`ct == KubernetesContainerTypeNone`). -/
structure StandaloneReq where
  sandboxLookupErr : Option ShimErr
  sandboxTypeNone : Bool
  rs5AndIsolated : Bool
  optsErr : Option ShimErr
  kind : BoundaryKind
  mkdirErr : Option ShimErr
  createErr : Option ShimErr
  startErr : Option ShimErr
  isWCOWSpec : Bool
  taskErr : Option ShimErr
deriving DecidableEq, Repr

/-- Embeds the tail of `newHcsStandaloneTask`: the call to `newHcsTask`
and, on its failure with a non-nil `parent`, the `parent.Close()`
rollback. -/
def finishStandaloneTask (r : StandaloneReq) (parentPresent : Bool)
    (tr : List CreateAction) : Except ShimErr Unit × List CreateAction :=
  let tr := tr ++ [CreateAction.createTask]
  match r.taskErr with
  | some er =>
    (.error er, if parentPresent then tr ++ [CreateAction.closeBoundary] else tr)
  | none => (.ok (), tr)

/-- Embeds lines 82 to 85 of `newHcsStandaloneTask`:
`err = parent.Start(); if err != nil { parent.Close() }` followed by the
fall-through into `newHcsTask` (the source contains no `return` in the
start-failure branch). -/
def startStandaloneBoundary (r : StandaloneReq) (tr : List CreateAction) :
    Except ShimErr Unit × List CreateAction :=
  let tr := tr ++ [CreateAction.startBoundary]
  let tr :=
    match r.startErr with
    | some _ => tr ++ [CreateAction.closeBoundary]
    | none => tr
  finishStandaloneTask r true tr

/-- Embeds `newHcsStandaloneTask`. The result is the returned error (or
`ok` when a task is constructed and returned) together with the trace of
observable effects, in program order. -/
def newHcsStandaloneTask (r : StandaloneReq) :
    Except ShimErr Unit × List CreateAction :=
  match r.sandboxLookupErr with
  | some er => (.error er, [])
  | none =>
    if ¬ r.sandboxTypeNone then (.error .failedPrecondition, [])
    else if r.rs5AndIsolated then
      match r.optsErr with
      | some er => (.error er, [])
      | none =>
        match r.kind with
        | .lcow =>
          match r.createErr with
          | some er => (.error er, [])
          | none => startStandaloneBoundary r [CreateAction.createBoundary]
        | .wcow =>
          match r.mkdirErr with
          | some er => (.error er, [])
          | none =>
            match r.createErr with
            | some er => (.error er, [CreateAction.mkdirVm])
            | none =>
              startStandaloneBoundary r
                [CreateAction.mkdirVm, CreateAction.createBoundary]
    else
      if ¬ r.isWCOWSpec then (.error .failedPrecondition, [])
      else finishStandaloneTask r false []

/-- Distinguished conditions reported by the container engine operations
(`hcs.IsPending`, `hcs.IsAlreadyStopped`, `hcs.IsAlreadyClosed`) plus an
opaque failure. -/
inductive EngineErr
  | pending
  | alreadyStopped
  | alreadyClosed
  | failure
deriving DecidableEq, Repr, Fintype

/-- Observable stages of the teardown sequencer `hcsTask.waitForExit`. -/
inductive TeardownAction
  | shutdown
  | waitTimeout (seconds : Nat)
  | terminate
  | releaseResources
  | closeContainer
  | closeHost
deriving DecidableEq, Repr

/-- Embeds the container phase of `hcsTask.waitForExit` (the body of the
`ht.c != nil` block): graceful `Shutdown`, a 5 minute `WaitTimeout` when
`Shutdown` reported pending, `Terminate` whenever `Shutdown` returned an
error, a 30 second `WaitTimeout` when `Terminate` reported pending
(`alreadyStopped` skips the whole terminate error handling), then
unconditionally `ReleaseResources` and `Close`. `sres` and `tres` are the
results of `Shutdown` and `Terminate` (`none` for success). -/
def containerTeardown (sres tres : Option EngineErr) : List TeardownAction :=
  TeardownAction.shutdown ::
    ((match sres with
      | none => []
      | some se =>
        (if se = EngineErr.pending then [TeardownAction.waitTimeout 300] else [])
          ++ [TeardownAction.terminate]
          ++ (match tres with
              | none => []
              | some te =>
                if te = EngineErr.alreadyStopped then []
                else if te = EngineErr.pending then
                  [TeardownAction.waitTimeout 30]
                else []))
      ++ [TeardownAction.releaseResources, TeardownAction.closeContainer])

/-- Embeds `hcsTask.waitForExit` after the init exec has exited: the
container phase runs when `ht.c != nil` (`cPresent`), then the host VM is
closed when `ht.ownsHost && ht.host != nil`. -/
def waitForExit (cPresent : Bool) (sres tres : Option EngineErr)
    (ownsHost hostPresent : Bool) : List TeardownAction :=
  (if cPresent then containerTeardown sres tres else [])
    ++ (if ownsHost ∧ hostPresent then [TeardownAction.closeHost] else [])

/-- Condition of the spec sentence for the terminate stage: the graceful
shutdown failed for a reason other than pending. -/
def shutdownFailedNonPending : Option EngineErr → Prop
  | none => False
  | some se => se ≠ EngineErr.pending

/-- A running exec with the given id and pid. -/
def runningExec (i : String) (p : Nat) : ExecEntry :=
  { id := i, pid := p, state := ShimExecState.running, exitStatus := 0, exitedAt := 0 }

/-- An exited exec with the given id, pid and captured status. -/
def exitedExec (i : String) (p es ea : Nat) : ExecEntry :=
  { id := i, pid := p, state := ShimExecState.exited, exitStatus := es, exitedAt := ea }

/-- Task with a running init exec and two running registry execs, in
registry iteration order `e1`, `e2`. -/
def twoExecTask : HcsTask :=
  { id := "t1"
    init := runningExec "t1" 100
    execs := [("e1", runningExec "e1" 101), ("e2", runningExec "e2" 102)] }

/-- Task whose registry holds an Exited exec `e1` followed by a Running
exec `e2`, with a running init exec. -/
def mixedKillTask : HcsTask :=
  { id := "t2"
    init := runningExec "t2" 100
    execs := [("e1", exitedExec "e1" 101 0 3), ("e2", runningExec "e2" 102)] }

/-- Task whose registry holds an Exited exec `e1` followed by a Running
exec `e2`, with an exited init exec. -/
def mixedDeleteTask : HcsTask :=
  { id := "t2"
    init := exitedExec "t2" 100 7 5
    execs := [("e1", exitedExec "e1" 101 0 3), ("e2", runningExec "e2" 102)] }

/-- C1: `hcsTask.KillExec` with `all == true` and `eid == ""` on a task
with two registry execs does not dispatch the signal to every exec: the
`Range` callback returns `false`, which stops `sync.Map.Range` after the
first entry, so only `e1` and the init exec are handed to the errgroup and
`e2` never receives the signal — contradicting the claim (and the source
comment `iterate all`). -/
theorem killExecAll_skips_second_registry_exec :
    KillExec twoExecTask (fun _ => none) "" 15 true = (.ok (), ["e1", "t1"]) ∧
    "e2" ∉ (KillExec twoExecTask (fun _ => none) "" 15 true).2 := by
  exact ⟨rfl, by decide⟩

/-- C2: on a registry containing the Exited exec `e1` followed by the
Running exec `e2`, both `KillExec(eid = "", all = false)` and
`DeleteExec(eid = "")` succeed instead of failing with a precondition
violation: the registry scan callback returns `false` on the first Exited
entry, stopping iteration before the Running `e2` is examined (the
callback booleans are inverted relative to the source comments). -/
theorem initKillDelete_miss_running_exec :
    (mapLoad mixedKillTask.execs "e2").map ExecEntry.state =
        some ShimExecState.running ∧
    KillExec mixedKillTask (fun _ => none) "" 15 false = (.ok (), ["t2"]) ∧
    (mapLoad mixedDeleteTask.execs "e2").map ExecEntry.state =
        some ShimExecState.running ∧
    DeleteExec mixedDeleteTask "" =
      (.ok (100, 7, 5), mixedDeleteTask,
       [TaskEvent.taskDelete "t2" "" 100 7 5]) := by
  refine ⟨rfl, rfl, rfl, rfl⟩

/-- Creation request for an isolated Linux guest whose boundary start
fails while every other step succeeds. -/
def startFailReq : StandaloneReq :=
  { sandboxLookupErr := none
    sandboxTypeNone := true
    rs5AndIsolated := true
    optsErr := none
    kind := BoundaryKind.lcow
    mkdirErr := none
    createErr := none
    startErr := some (ShimErr.other 1)
    isWCOWSpec := false
    taskErr := none }

/-- C3: when `parent.Start()` fails, `newHcsStandaloneTask` closes the
boundary but contains no `return` in that branch: it falls through to
`newHcsTask` and, when that succeeds, returns the constructed task with a
nil error — contradicting the claim that task creation fails. -/
theorem standaloneTask_succeeds_after_start_failure :
    startFailReq.startErr ≠ none ∧
    newHcsStandaloneTask startFailReq =
      (.ok (),
       [CreateAction.createBoundary, CreateAction.startBoundary,
        CreateAction.closeBoundary, CreateAction.createTask]) := by
  exact ⟨by decide, rfl⟩

/-- C4: `hcsTask.Pids` returns `errdefs.ErrNotImplemented` for every task
instead of enumerating the init exec and the registry entries. -/
theorem hcsTaskPids_notImplemented (ht : HcsTask) :
    hcsTaskPids ht = .error ShimErr.notImplemented := rfl

/-- C7 counterexample: when `Shutdown` reports pending, the code still
attempts `Terminate` (after the 5 minute wait), although the claim states
that terminate is attempted only when the shutdown failure is
non-pending. -/
theorem terminate_attempted_on_pending_shutdown :
    TeardownAction.terminate ∈
        waitForExit true (some EngineErr.pending) none true true ∧
    ¬ shutdownFailedNonPending (some EngineErr.pending) := by
  exact ⟨by decide, fun h => h rfl⟩

/-- C7 amended: forced terminate is attempted exactly when the graceful
shutdown returned any error (pending included); a pending terminate
result leads to the bounded 30 second wait; an alreadyStopped terminate
result is treated as success (the trace equals the successful-terminate
trace). -/
theorem terminate_iff_shutdown_failed :
    ∀ (sres tres : Option EngineErr) (o h : Bool),
      (TeardownAction.terminate ∈ waitForExit true sres tres o h ↔ sres ≠ none) ∧
      (TeardownAction.waitTimeout 30 ∈ waitForExit true sres tres o h ↔
        (sres ≠ none ∧ tres = some EngineErr.pending)) ∧
      containerTeardown sres (some EngineErr.alreadyStopped) =
        containerTeardown sres none := by
  decide

/-- C8: in every teardown run with the container handle present, the host
boundary is closed exactly when the task owns it and a boundary is
present, and that close is the final stage: the shutdown, resource
release and container-handle close stages (and terminate, whenever it is
attempted) all occur strictly before it. -/
theorem closeHost_last_iff_owned :
    ∀ (sres tres : Option EngineErr) (o h : Bool),
      (TeardownAction.closeHost ∈ waitForExit true sres tres o h ↔
        (o = true ∧ h = true)) ∧
      (o = true → h = true →
        (waitForExit true sres tres o h).getLast? =
            some TeardownAction.closeHost ∧
        TeardownAction.closeHost ∉ (waitForExit true sres tres o h).dropLast ∧
        TeardownAction.shutdown ∈ (waitForExit true sres tres o h).dropLast ∧
        TeardownAction.releaseResources ∈
            (waitForExit true sres tres o h).dropLast ∧
        TeardownAction.closeContainer ∈
            (waitForExit true sres tres o h).dropLast ∧
        (sres ≠ none →
          TeardownAction.terminate ∈ (waitForExit true sres tres o h).dropLast)) := by
  decide

/-- C8 witness: at a concrete run (failed shutdown, successful terminate,
owned and present boundary) the host close is the last stage. -/
theorem closeHost_last_iff_owned_witness :
    (waitForExit true (some EngineErr.failure) none true true).getLast? =
      some TeardownAction.closeHost :=
  ((closeHost_last_iff_owned (some EngineErr.failure) none true true).2 rfl rfl).1

/-- C5: `hcsTask.CreateExec` rejects an empty or duplicate exec id with an
already-exists error, rejects a non-empty fresh id with a precondition
violation while the init exec is not Running, and on every failure path
leaves the registry unchanged and publishes no event. -/
theorem createExec_contract (ht : HcsTask) (eid : String)
    (relayErr : Option ShimErr) (ne : ExecEntry) :
    ((eid = "" ∨ (mapLoad ht.execs eid).isSome = true) →
      (CreateExec ht eid relayErr ne).1 = .error ShimErr.alreadyExists) ∧
    ((eid ≠ "" ∧ (mapLoad ht.execs eid).isSome = false ∧
        ht.init.state ≠ ShimExecState.running) →
      (CreateExec ht eid relayErr ne).1 = .error ShimErr.failedPrecondition) ∧
    (∀ er, (CreateExec ht eid relayErr ne).1 = .error er →
      (CreateExec ht eid relayErr ne).2.1 = ht ∧
      (CreateExec ht eid relayErr ne).2.2 = []) := by
  refine ⟨?_, ?_, ?_⟩
  · rintro (h | h)
    · simp [CreateExec, h]
    · simp [CreateExec, h]
  · rintro ⟨h1, h2, h3⟩
    simp [CreateExec, h1, h2, h3]
  · intro er h
    unfold CreateExec at h ⊢
    split_ifs at h ⊢
    · exact ⟨rfl, rfl⟩
    · exact ⟨rfl, rfl⟩
    · cases relayErr <;> simp_all

/-- C5 witness: creating an exec with the empty id (reserved for init)
fails with already-exists. -/
theorem createExec_contract_witness :
    (CreateExec twoExecTask "" none (runningExec "x" 1)).1 =
      .error ShimErr.alreadyExists :=
  (createExec_contract twoExecTask "" none (runningExec "x" 1)).1 (Or.inl rfl)

/-- Task whose init exec is Exited while the registry still holds the
Running exec `e1`. -/
def initExitedChildRunningTask : HcsTask :=
  { id := "t6"
    init := exitedExec "t6" 100 7 5
    execs := [("e1", runningExec "e1" 101)] }

/-- C6 counterexample: the init exec is in state Exited, yet
`DeleteExec(eid = "")` fails with a precondition violation (the registry
still holds a Running exec), so state Exited of the target exec is not
sufficient for the success behaviour the claim states. -/
theorem deleteInit_fails_despite_exited_init :
    GetExec initExitedChildRunningTask "" = .ok initExitedChildRunningTask.init ∧
    initExitedChildRunningTask.init.state = ShimExecState.exited ∧
    DeleteExec initExitedChildRunningTask "" =
      (.error ShimErr.failedPrecondition, initExitedChildRunningTask, []) :=
  ⟨rfl, rfl, rfl⟩

/-- The registry scan reports no unexited exec when every registry entry
is Exited. -/
theorem unexitedScan_false_of_allExited (m : List (String × ExecEntry))
    (h : ∀ p ∈ m, p.2.state = ShimExecState.exited) :
    unexitedScan m = false := by
  cases m with
  | nil => rfl
  | cons p rest =>
    have hp := h p (List.mem_cons_self p rest)
    simp [unexitedScan, mapRange, hp]

/-- C6 amended: for an existing exec, a non-Exited state yields a
precondition violation without mutation; an Exited state — together with,
for the init exec, every registry exec being Exited — yields the captured
status triple, removes the exec from the registry exactly when the id is
non-empty, and publishes the task-delete event carrying the captured
values. -/
theorem deleteExec_contract (ht : HcsTask) (eid : String) (e : ExecEntry)
    (hget : GetExec ht eid = .ok e) :
    (e.state ≠ ShimExecState.exited →
      (DeleteExec ht eid).1 = .error ShimErr.failedPrecondition ∧
      (DeleteExec ht eid).2.1 = ht ∧ (DeleteExec ht eid).2.2 = []) ∧
    (e.state = ShimExecState.exited →
      (eid = "" → ∀ p ∈ ht.execs, p.2.state = ShimExecState.exited) →
      (DeleteExec ht eid).1 = .ok (e.pid, e.exitStatus, e.exitedAt) ∧
      (DeleteExec ht eid).2.1 =
        (if eid = "" then ht else { ht with execs := mapDelete ht.execs eid }) ∧
      (DeleteExec ht eid).2.2 =
        [TaskEvent.taskDelete ht.id eid e.pid e.exitStatus e.exitedAt]) := by
  constructor
  · intro hs
    by_cases he1 : eid = ""
    · subst he1
      by_cases he2 : unexitedScan ht.execs
      · simp [DeleteExec, hget, he2]
      · simp [DeleteExec, hget, he2, hs]
    · simp [DeleteExec, hget, he1, hs]
  · intro hs hall
    have hscan : ¬ (eid = "" ∧ unexitedScan ht.execs) := by
      rintro ⟨h1, h2⟩
      rw [unexitedScan_false_of_allExited ht.execs (hall h1)] at h2
      exact Bool.false_ne_true h2
    simp [DeleteExec, hget, hscan, hs]

/-- Task with a running init exec and a single Exited registry exec. -/
def exitedChildTask : HcsTask :=
  { id := "t7"
    init := runningExec "t7" 100
    execs := [("e1", exitedExec "e1" 101 3 9)] }

/-- C6 amended witness: deleting the Exited exec `e1` returns its captured
status triple. -/
theorem deleteExec_contract_witness :
    (DeleteExec exitedChildTask "e1").1 = .ok (101, 3, 9) :=
  ((deleteExec_contract exitedChildTask "e1" (exitedExec "e1" 101 3 9) rfl).2
    rfl (fun h => absurd h (by decide))).1

/-- C9: `hcsTask.KillExec` with `all == true` and a non-empty exec id
fails with a precondition violation when the id exists (dispatching no
signal), and with not-found when the id does not exist (the `GetExec`
lookup precedes the all/eid precondition check). -/
theorem killExecAll_nonEmpty_eid (ht : HcsTask)
    (killRes : String → Option ShimErr) (eid : String) (signal : Nat)
    (hne : eid ≠ "") :
    ((mapLoad ht.execs eid).isSome = true →
      KillExec ht killRes eid signal true =
        (.error ShimErr.failedPrecondition, [])) ∧
    (mapLoad ht.execs eid = none →
      KillExec ht killRes eid signal true = (.error ShimErr.notFound, [])) := by
  constructor
  · intro h
    obtain ⟨e, he⟩ := Option.isSome_iff_exists.mp h
    simp [KillExec, GetExec, hne, he]
  · intro h
    simp [KillExec, GetExec, hne, h]

/-- C9 witness: on the two-exec task, `KillExec("e1", all = true)` fails
with a precondition violation dispatching nothing. -/
theorem killExecAll_nonEmpty_eid_witness :
    KillExec twoExecTask (fun _ => none) "e1" 9 true =
      (.error ShimErr.failedPrecondition, []) :=
  (killExecAll_nonEmpty_eid twoExecTask (fun _ => none) "e1" 9 (by decide)).1 rfl

/-- Element at the length of the front list in a concatenation with a
singleton. -/
theorem getD_concat_length (l : List String) (a d : String) :
    (l ++ [a]).getD l.length d = a := by
  induction l with
  | nil => rfl
  | cons x xs ih => simp [ih]

/-- Setting the element at the length of the front list in a concatenation
with a singleton replaces that singleton. -/
theorem set_concat_length (l : List String) (a v : String) :
    (l ++ [a]).set l.length v = l ++ [v] := by
  induction l with
  | nil => rfl
  | cons x xs ih => simp [ih]

/-- C10: the boundary options receive a copy of the layer-folder list with
only the last entry replaced by its nested `vm` subdirectory, and the
runtime specification layer-folder list is left unchanged. -/
theorem wcowLayers_replace_last_only (front : List String) (lst : String) :
    setupWcowLayers (front ++ [lst]) =
      (front ++ [filepathJoin lst "vm"], front ++ [lst]) := by
  have htake : List.take (front.length + 1) (front ++ [lst]) = front ++ [lst] := by
    have h1 : front.length + 1 = (front ++ [lst]).length := by simp
    rw [h1, List.take_length]
  simp [setupWcowLayers, getD_concat_length, set_concat_length, htake]

end HcsShim
